import Mathlib

/-!
Verification of the DegreeVerify upload-file generator
(`DegreeVerify_create_upload_file.py`).

The development shallowly embeds the parts of the program the claims are
about:

* Python strings are modelled as Lean `String`s; Python string primitives
  (`s[:n]`, `s.ljust(n)`, `s.startswith(p)`, lexicographic `<`) are modelled
  as executable functions over the underlying character lists.
* `write_fw`, the fixed-width encoder, is modelled as a function from a
  field specification and a list of rows to a `FwResult`: either the list of
  lines written followed by normal return of the written-line count, or the
  lines written before an uncaught Python exception (`KeyError` on a missing
  column, `TypeError` from `len` on a non-string value such as a pandas
  `NaN`).  A row maps column names to `Option String`; `none` is a
  present-but-non-string value (`NaN`), an absent key is a missing column.
* the column-rule fragments of `create_DV_df` (degree-level indicator,
  SSN filtering and normalisation) are modelled as per-record functions with
  the same sequential-overwrite semantics as the pandas `.loc` statements.
* `minor_data` is modelled over lists of `TRANSCRIPTDEGREE` rows, including
  the stable sort, `drop_duplicates(keep="last")`,
  `groupby("PEOPLE_CODE_ID").rank(method="first")` and the rank filter.
* `academic_data` is modelled at the level of its dataframe dataflow to
  settle the dead-first-query claim.
-/

set_option maxRecDepth 40000

namespace DegreeVerify

/-! ### Python string primitives -/

/-- Strict comparison of two characters by code point, as Python compares
string elements. -/
def charLt (a b : Char) : Bool := decide (a < b)

/-- Lexicographic strict comparison of character lists: the model of
Python's `<` on strings. -/
def charsLt : List Char → List Char → Bool
  | [], [] => false
  | [], _ :: _ => true
  | _ :: _, [] => false
  | a :: as, b :: bs =>
    if charLt a b then true else if charLt b a then false else charsLt as bs

/-- Python `a < b` on strings. -/
def pyStrLt (a b : String) : Bool := charsLt a.data b.data

/-- Python `s[:n]`. -/
def pyTake (s : String) (n : Nat) : String := String.mk (s.data.take n)

/-- Python `s.ljust(n)`: pad on the right with spaces up to length `n`. -/
def pyLjust (s : String) (n : Nat) : String :=
  String.mk (s.data ++ List.replicate (n - s.data.length) ' ')

/-- Python `s.startswith(p)`. -/
def pyStartswith (s p : String) : Bool := s.data.take p.data.length == p.data

/-! ### The fixed-width encoder `write_fw` -/

/-- One column of a field specification: the `'name': [width, start, end]`
entries of the `specs` dictionary (`max_len`, `start`, `end` in the source). -/
structure Spec where
  name : String
  width : Nat
  startPos : Nat
  endPos : Nat
deriving DecidableEq, Repr

/-- A dataframe row as seen by `write_fw`: an ordered association of column
names to values.  `some s` is a string value, `none` a present-but-non-string
value (pandas `NaN`); a name absent from the list is a missing column. -/
abbrev Row := List (String × Option String)

/-- How a `write_fw` iteration can abort: an uncaught Python exception, or
the `return 0` taken on an inconsistent field specification. -/
inductive FwErr
  | exn
  | ret0
deriving DecidableEq, Repr

/-- Result of a `write_fw` call: `ret lines τ` is a normal return of `τ`
after writing `lines` to the file, `excpt lines` an uncaught exception
escaping after `lines` were written. -/
inductive FwResult
  | excpt (lines : List String)
  | ret (lines : List String) (retval : Nat)
deriving DecidableEq, Repr

/-- The lines present in the output file after the call. -/
def linesOf : FwResult → List String
  | .excpt ls => ls
  | .ret ls _ => ls

/-- Occurrence of `needle` as a contiguous sublist of the second argument. -/
def containsSub (needle : List Char) : List Char → Bool
  | [] => needle == []
  | c :: t => (c :: t).take needle.length == needle || containsSub needle t

/-- Python `"Filler" in c`: substring containment. -/
def hasFiller (c : String) : Bool := containsSub ("Filler").data c.data

/-- The source's consistency check `(start + (max_len - 1)) == end`,
with Python integer arithmetic. -/
def consistentSpec (sp : Spec) : Bool :=
  (sp.startPos : Int) + ((sp.width : Int) - 1) == (sp.endPos : Int)

/-- The truncate-or-pad step of `write_fw`:
`if len(s) > max_len: s = s[:max_len] elif len(s) < max_len: s = s.ljust(max_len)`. -/
def truncPad (s : String) (w : Nat) : String :=
  if w < s.length then pyTake s w
  else if s.length < w then pyLjust s w
  else s

/-- One field of one row, as processed by the body of the inner loop of
`write_fw`: fetch the value (`" "` for filler columns, `row[c]` otherwise,
raising on a missing column), run the consistency check (`return 0` on
failure), then truncate or pad (raising if the value is not a string). -/
def fwField (row : Row) (sp : Spec) : Except FwErr String :=
  match (if hasFiller sp.name then some (some " ") else row.lookup sp.name) with
  | none => .error .exn
  | some v =>
    if consistentSpec sp then
      match v with
      | none => .error .exn
      | some s => .ok (truncPad s sp.width)
    else .error .ret0

/-- One line of `write_fw`: the fields of a row encoded and concatenated in
specification order, stopping at the first abort. -/
def fwLine (row : Row) : List Spec → Except FwErr String
  | [] => .ok ""
  | sp :: rest =>
    match fwField row sp with
    | .error e => .error e
    | .ok s =>
      match fwLine row rest with
      | .error e => .error e
      | .ok l => .ok (s ++ l)

/-- The row loop of `write_fw`; `acc` holds the lines written so far in
reverse order, and the normal return value is the written-line count `lw`. -/
def writeFwGo (specs : List Spec) : List Row → List String → FwResult
  | [], acc => .ret acc.reverse acc.length
  | row :: rest, acc =>
    match fwLine row specs with
    | .error .exn => .excpt acc.reverse
    | .error .ret0 => .ret acc.reverse 0
    | .ok line => writeFwGo specs rest (line :: acc)

/-- The fixed-width encoder `write_fw` (file path and mode omitted: the model
records the lines the call writes and its return value). -/
def write_fw (specs : List Spec) (rows : List Row) : FwResult :=
  writeFwGo specs rows []

/-- Sum of the declared widths of a specification. -/
def widthSum (specs : List Spec) : Nat := (specs.map (fun sp => sp.width)).sum

/-- The largest declared end position of a specification. -/
def maxEnd (specs : List Spec) : Nat := (specs.map (fun sp => sp.endPos)).foldr max 0

/-- A row supplies a string value for every non-filler column of the
specification: the domain on which `write_fw` cannot raise. -/
def rowComplete (specs : List Spec) (row : Row) : Bool :=
  specs.all (fun sp =>
    hasFiller sp.name ||
      (match row.lookup sp.name with
       | some (some _) => true
       | _ => false))

/-! ### The DegreeVerify schemas -/

/-- `dv_col_def` of `write_DV_data`: the 3840-column data-record layout. -/
def dv_col_def : List Spec := [
  ⟨"Record Type", 3, 1, 3⟩,
  ⟨"Student SSN", 9, 4, 12⟩,
  ⟨"First Name", 40, 13, 52⟩,
  ⟨"Middle Name", 40, 53, 92⟩,
  ⟨"Last Name", 40, 93, 132⟩,
  ⟨"Name Suffix", 5, 133, 137⟩,
  ⟨"Previous Last Name", 40, 138, 177⟩,
  ⟨"Previous First Name", 40, 178, 217⟩,
  ⟨"Date of Birth", 8, 218, 225⟩,
  ⟨"College Student ID", 20, 226, 245⟩,
  ⟨"Filler1", 59, 246, 304⟩,
  ⟨"Degree Level Indicator", 1, 305, 305⟩,
  ⟨"Degree, Certificate, or Credential Title", 80, 306, 385⟩,
  ⟨"School/College/Division Awarding Degree", 50, 386, 435⟩,
  ⟨"Joint Institution/College/School/Division Name", 60, 436, 495⟩,
  ⟨"Date Degree, Credential, or Certificate Awarded", 8, 496, 503⟩,
  ⟨"Filler02", 80, 504, 583⟩,
  ⟨"Major Course of Study 1", 80, 584, 663⟩,
  ⟨"Major Course of Study 2", 80, 664, 743⟩,
  ⟨"Major Course of Study 3", 80, 744, 823⟩,
  ⟨"Major Course of Study 4", 80, 824, 903⟩,
  ⟨"Filler03", 160, 904, 1063⟩,
  ⟨"Minor Course of Study 1", 80, 1064, 1143⟩,
  ⟨"Minor Course of Study 2", 80, 1144, 1223⟩,
  ⟨"Minor Course of Study 3", 80, 1224, 1303⟩,
  ⟨"Minor Course of Study 4", 80, 1304, 1383⟩,
  ⟨"Filler04", 160, 1384, 1543⟩,
  ⟨"Major Option 1", 80, 1544, 1623⟩,
  ⟨"Major Option 2", 80, 1624, 1703⟩,
  ⟨"Filler05", 160, 1704, 1863⟩,
  ⟨"Major Concentration 1", 80, 1864, 1943⟩,
  ⟨"Major Concentration 2", 80, 1944, 2023⟩,
  ⟨"Major Concentration 3", 80, 2024, 2103⟩,
  ⟨"Filler06", 280, 2104, 2383⟩,
  ⟨"NCES CIP Code for Major 1", 6, 2384, 2389⟩,
  ⟨"NCES CIP Code for Major 2", 6, 2390, 2395⟩,
  ⟨"NCES CIP Code for Major 3", 6, 2396, 2401⟩,
  ⟨"NCES CIP Code for Major 4", 6, 2402, 2407⟩,
  ⟨"Filler07", 20, 2408, 2427⟩,
  ⟨"NCES CIP Code for Minor 1", 6, 2428, 2433⟩,
  ⟨"NCES CIP Code for Minor 2", 6, 2434, 2439⟩,
  ⟨"NCES CIP Code for Minor 3", 6, 2440, 2445⟩,
  ⟨"NCES CIP Code for Minor 4", 6, 2446, 2451⟩,
  ⟨"Filler08", 120, 2452, 2571⟩,
  ⟨"Academic Honors", 50, 2572, 2621⟩,
  ⟨"Filler09", 196, 2622, 2817⟩,
  ⟨"Honors Program", 50, 2818, 2867⟩,
  ⟨"Filler10", 100, 2868, 2967⟩,
  ⟨"Other Honors", 150, 2968, 3117⟩,
  ⟨"Attendance From Date", 8, 3118, 3125⟩,
  ⟨"Attendance To Date", 8, 3126, 3133⟩,
  ⟨"FERPA Block", 1, 3134, 3134⟩,
  ⟨"School Financial Block", 1, 3135, 3135⟩,
  ⟨"Filler11", 100, 3136, 3235⟩,
  ⟨"Name of Institution Granting Degree", 50, 3236, 3285⟩,
  ⟨"Reverse Transfer Flag", 1, 3286, 3286⟩,
  ⟨"Certificate Type", 1, 3287, 3287⟩,
  ⟨"Filler12", 553, 3288, 3840⟩]

/-- `dv_tlr_def` of `write_DV_trailer`: the trailer-record layout. -/
def dv_tlr_def : List Spec := [
  ⟨"Record Type", 3, 1, 3⟩,
  ⟨"Total Record Count", 10, 4, 13⟩,
  ⟨"Filler01", 3827, 14, 3840⟩]

/-- The single trailer row built by `write_DV_trailer` from the already
incremented total record count. -/
def trailer_row (total_record_count : Nat) : Row :=
  [("Record Type", some "DT1"),
   ("Total Record Count", some (toString total_record_count)),
   ("Filler01", some " ")]

/-- `write_DV_trailer`: adds 2 to the detail record count (header and trailer)
 and writes the single trailer record through `write_fw`. -/
def write_DV_trailer (detail_record_count : Nat) : FwResult :=
  write_fw dv_tlr_def [trailer_row (detail_record_count + 2)]

/-- The expected encoded trailer line: record type, the count left-justified
in 10 columns, and the 3827-column filler. -/
def trailerLine (total : Nat) : String :=
  String.mk (("DT1").data ++ (toString total).data
    ++ List.replicate (10 - (toString total).length) ' ' ++ List.replicate 3827 ' ')

/-- The `fill_list` of `create_DV_df`: the only columns blank-filled after
assembly (note `Degree Level Indicator` is absent). -/
def fill_list : List String := [
  "Minor Course of Study 1",
  "Minor Course of Study 2",
  "Minor Course of Study 3",
  "Minor Course of Study 4",
  "Academic Honors",
  "Certificate Type",
  "NCES CIP Code for Major 1",
  "Attendance From Date",
  "Attendance To Date"]

/-- A data row supplying the string `"X"` for every non-filler column of
`dv_col_def`. -/
def dvRowFull : Row :=
  dv_col_def.filterMap (fun sp =>
    if hasFiller sp.name then none else some (sp.name, some "X"))

/-- A data row whose `Degree Level Indicator` is a present-but-non-string
`NaN` — the value `create_DV_df` leaves there for an unmapped degree code —
and every other non-filler column a string. -/
def dvRowNoDLI : Row :=
  dv_col_def.filterMap (fun sp =>
    if hasFiller sp.name then none
    else if sp.name = "Degree Level Indicator" then some (sp.name, none)
    else some (sp.name, some "X"))

/-! ### Column rules of `create_DV_df` -/

/-- One `.loc[df['DEGREE'].isin(codes), 'Degree Level Indicator'] = v`
statement, per record: overwrite the current value when the degree code is in
the set, keep it otherwise. -/
def dliStep (cur : Option String) (codes : List String) (degree : String)
    (v : String) : Option String :=
  if codes.contains degree then some v else cur

/-- The Degree Level Indicator of a record, per the five sequential `.loc`
assignments of `create_DV_df`; the column starts out absent (`none`). -/
def degreeLevelIndicator (degree : String) : Option String :=
  dliStep
    (dliStep
      (dliStep
        (dliStep
          (dliStep none ["BS", "BA", "BPS"] degree "B")
          ["AS", "AAS", "AA", "AOS"] degree "A")
        ["MS", "MPS"] degree "M")
      ["CERTIF"] degree "C")
    ["GCERT"] degree "T"

/-- One `.loc[df['Student SSN'].str.startswith(p), 'Student SSN'] = "NO SSN"`
statement, per record. -/
def ssnPrefixStep (pre : String) (s : String) : String :=
  if pyStartswith s pre then "NO SSN" else s

/-- The three sequential SSN-normalisation assignments of `create_DV_df`,
applied in source order `000`, `888`, `999`. -/
def applySsnRules (s : String) : String :=
  ssnPrefixStep "999" (ssnPrefixStep "888" (ssnPrefixStep "000" s))

/-- The SSN block of `create_DV_df`: drop the records whose
`Student SSN` (`GOVERNMENT_ID`) is missing, then normalise foreign-student
prefixes on the survivors.  A record is an SSN paired with the rest of the
row (`α`). -/
def ssnFilterNormalize {α : Type} (records : List (Option String × α)) :
    List (String × α) :=
  (records.filterMap (fun x => x.1.map (fun s => (s, x.2)))).map
    (fun x => (applySsnRules x.1, x.2))

/-! ### `minor_data` -/

/-- A `TRANSCRIPTDEGREE` row as used by `minor_data` (graduation date already
formatted `YYYYMMDD`, `PROGRAM` already dropped). -/
structure TDRow where
  pcid : String
  degree : String
  curriculum : String
  formalTitle : String
  graduationDate : String
deriving DecidableEq, Repr

/-- The `sort_values(['PEOPLE_CODE_ID', 'GRADUATION_DATE'])` key order
(non-strict, so that the sort below is stable, as the pandas lexsort is). -/
def tdLe (a b : TDRow) : Bool :=
  pyStrLt a.pcid b.pcid ||
    (a.pcid == b.pcid && (pyStrLt a.graduationDate b.graduationDate ||
      a.graduationDate == b.graduationDate))

/-- Stable insertion of a row before the first strictly greater row. -/
def insertRow (x : TDRow) : List TDRow → List TDRow
  | [] => [x]
  | y :: ys => if tdLe x y then x :: y :: ys else y :: insertRow x ys

/-- Stable ascending sort by `(PEOPLE_CODE_ID, GRADUATION_DATE)`; as a stable
sort it computes the same list as the pandas stable lexsort. -/
def sortRows : List TDRow → List TDRow
  | [] => []
  | x :: xs => insertRow x (sortRows xs)

/-- The four-column duplicate key of the minor `drop_duplicates` call. -/
def tdKey (r : TDRow) : String × String × String × String :=
  (r.pcid, r.graduationDate, r.degree, r.curriculum)

/-- `drop_duplicates(subset, keep="last")`: a row survives when no later row
has the same key. -/
def dropDupKeepLast : List TDRow → List TDRow
  | [] => []
  | x :: xs =>
    if xs.any (fun y => tdKey y == tdKey x) then dropDupKeepLast xs
    else x :: dropDupKeepLast xs

/-- Rows of the student's group with a strictly earlier graduation date. -/
def countLt (l : List TDRow) (p d : String) : Nat :=
  (l.filter (fun r => r.pcid == p && pyStrLt r.graduationDate d)).length

/-- Rows of the student's group with the same graduation date. -/
def countEq (l : List TDRow) (p d : String) : Nat :=
  (l.filter (fun r => r.pcid == p && r.graduationDate == d)).length

/-- `groupby(["PEOPLE_CODE_ID"])["GRADUATION_DATE"].rank(method="first")`:
each row's rank within its student group is the number of group rows with a
smaller date plus the number of group rows with an equal date up to and
including the row itself.  `pre` is the prefix of `full` already processed. -/
def rankGo (full : List TDRow) (pre : List TDRow) : List TDRow → List (TDRow × Nat)
  | [] => []
  | r :: rest =>
    (r, countLt full r.pcid r.graduationDate +
        countEq (pre ++ [r]) r.pcid r.graduationDate) ::
      rankGo full (pre ++ [r]) rest

/-- The rank column added by `minor_data`. -/
def addRank (l : List TDRow) : List (TDRow × Nat) := rankGo l [] l

/-- `FORMAL_TITLE.str.replace(' Minor', '').replace('Minor', '')`:
strip every `" Minor"` substring, then map a value equal to `"Minor"`
to the empty string (`Series.replace` matches whole values). -/
def cleanTitle (t : String) : String :=
  let t1 := t.replace " Minor" ""
  if t1 = "Minor" then "" else t1

/-- One entry of the pivoted minor table: a cell at row index
`(pcid, graduationDate)` and column `col = "Minor Course of Study " ++ rank`. -/
structure MinorRec where
  pcid : String
  graduationDate : String
  curriculum : String
  rank : Nat
  col : String
  title : String
deriving DecidableEq, Repr

/-- `minor_data`: filter to `DEGREE == 'MINOR'`, stable-sort by
`(PEOPLE_CODE_ID, GRADUATION_DATE)`, drop duplicates keeping the last, rank
per student by graduation date with `method="first"`, keep ranks at most 4,
and name the pivot column for each surviving row. -/
def minor_data (df_td : List TDRow) : List MinorRec :=
  ((addRank (dropDupKeepLast (sortRows
      (df_td.filter (fun r => r.degree == "MINOR"))))).filter
    (fun x => x.2 ≤ 4)).map (fun x =>
    ⟨x.1.pcid, x.1.graduationDate, x.1.curriculum, x.2,
     "Minor Course of Study " ++ toString x.2, cleanTitle x.1.formalTitle⟩)

/-- A cell of the pivoted minor table, before the `fillna(' ')`:
the title of the row of `minor_data` with the given index and column. -/
def minorPivotCell (df_td : List TDRow) (p d col : String) : Option String :=
  ((minor_data df_td).find? (fun m =>
    m.pcid == p && m.graduationDate == d && m.col == col)).map
    (fun m => m.title)

/-- Five minors of one student on one graduation date. -/
def tdFiveOneDate : List TDRow :=
  [⟨"P001", "MINOR", "BIO", "Biology Minor", "20200515"⟩,
   ⟨"P001", "MINOR", "CHE", "Chemistry Minor", "20200515"⟩,
   ⟨"P001", "MINOR", "ENG", "English Minor", "20200515"⟩,
   ⟨"P001", "MINOR", "FOR", "Forestry Minor", "20200515"⟩,
   ⟨"P001", "MINOR", "MAT", "Mathematics Minor", "20200515"⟩]

/-- Four minors of one student on an early graduation date and a single minor
of the same student on a later one. -/
def tdFourPlusOne : List TDRow :=
  [⟨"P001", "MINOR", "BIO", "Biology Minor", "20200515"⟩,
   ⟨"P001", "MINOR", "CHE", "Chemistry Minor", "20200515"⟩,
   ⟨"P001", "MINOR", "ENG", "English Minor", "20200515"⟩,
   ⟨"P001", "MINOR", "FOR", "Forestry Minor", "20200515"⟩,
   ⟨"P001", "MINOR", "MAT", "Mathematics Minor", "20210601"⟩]

/-! ### `academic_data` -/

/-- A query against the backing store: table, projected fields, filter. -/
structure Query where
  table : String
  fields : List String
  whereClause : String
deriving DecidableEq, Repr

/-- A generic dataframe: rows of column-name/value pairs. -/
abbrev DF := List (List (String × String))

/-- The first `ACADEMIC` query of `academic_data` (admit-date filter). -/
def acadQuery1 : Query :=
  ⟨"ACADEMIC",
   ["PEOPLE_CODE_ID", "ACADEMIC_YEAR", "ACADEMIC_TERM", "ACADEMIC_SESSION",
    "PROGRAM", "DEGREE", "CURRICULUM", "COLLEGE",
    "ADMIT_YEAR", "ADMIT_TERM", "ADMIT_DATE"],
   "ACADEMIC_SESSION = \x27\x27 and PRIMARY_FLAG = \x27Y\x27 and CREDITS > 0 and ADMIT_DATE IS NOT NULL and ADMIT_DATE > \x271899-01-01\x27 and ADMIT_DATE < \x272100-01-01\x27"⟩

/-- The second, narrower `ACADEMIC` query of `academic_data`
(enrolled, non-transfer, post-1999). -/
def acadQuery2 : Query :=
  ⟨"ACADEMIC",
   ["PEOPLE_CODE_ID", "ACADEMIC_YEAR", "ACADEMIC_TERM", "ACADEMIC_SESSION",
    "ENROLL_SEPARATION"],
   "ACADEMIC_SESSION = \x27\x27 and PRIMARY_FLAG = \x27Y\x27 and CREDITS > 0 and ACADEMIC_YEAR > 1999 and ACADEMIC_TERM NOT IN (\x27Transfer\x27, \x27JTERM\x27) and ENROLL_SEPARATION = \x27ENRL\x27 "⟩

/-- `df.drop(columns=cols)`. -/
def dropCols (df : DF) (cols : List String) : DF :=
  df.map (fun row => row.filter (fun kv => !(cols.contains kv.1)))

/-- The dataflow of `academic_data`: `df_a` is bound to the first query's
result and immediately rebound to the second query's result, the listed
columns are dropped, and the remainder of the function (the
`add_col_yearterm_sort`, calendar merges, group-bys and date formatting of
lines 84–130, none of which mention the first result) is abstracted as
`rest`. -/
def academic_data (sel : Query → DF) (rest : DF → DF) : DF :=
  let df_a := sel acadQuery1
  let df_a := sel acadQuery2
  let df_a := dropCols df_a ["ACADEMIC_SESSION", "ENROLL_SEPARATION"]
  rest df_a

/-- Modelled from the spec: the variant of `academic_data` that issues only
the second, narrower query, as §9 of the spec directs implementers to do. -/
def academic_data_secondOnly (sel : Query → DF) (rest : DF → DF) : DF :=
  let df_a := sel acadQuery2
  let df_a := dropCols df_a ["ACADEMIC_SESSION", "ENROLL_SEPARATION"]
  rest df_a

/-! ### Concrete instances used by witnesses and counterexamples -/

/-- A one-column consistent specification. -/
def specEx : Spec := ⟨"Name Field", 3, 1, 3⟩

/-- A row for `specEx` whose value is longer than the declared width. -/
def rowEx : Row := [("Name Field", some "ABCDE")]

/-- The spec's example of an inconsistent column spec:
start=1, end=5, width=3. -/
def inconsistentSpecEx : List Spec := [⟨"A", 3, 1, 5⟩]

/-- A complete row for `inconsistentSpecEx`. -/
def rowAEx : Row := [("A", some "xx")]

/-- A record set with one foreign-prefix SSN, one ordinary SSN, and one
missing SSN. -/
def ssnRecordsEx : List (Option String × Nat) :=
  [(some "888123456", 1), (some "123456789", 2), (none, 3)]

/-- A data source whose first `ACADEMIC` query result is nonempty and whose
second is empty. -/
def selEx : Query → DF :=
  fun q => if q = acadQuery1 then [[("COLLEGE", "X")]] else []

/-- A data source returning nothing for every query: it agrees with `selEx`
on the second `ACADEMIC` query but not on the first. -/
def selEx2 : Query → DF := fun _ => []

/-! ## Lemmas about strings -/

theorem strLength_data (s : String) : s.length = s.data.length := rfl

theorem strData_append (a b : String) : (a ++ b).data = a.data ++ b.data := rfl

theorem strExt {a b : String} (h : a.data = b.data) : a = b := congrArg String.mk h

theorem strMk_data (s : String) : String.mk s.data = s := rfl

theorem strData_mk (l : List Char) : (String.mk l).data = l := rfl

theorem strLength_mk (l : List Char) : (String.mk l).length = l.length := rfl

/-! ## Lemmas about `truncPad` and `write_fw` -/

theorem truncPad_length (s : String) (w : Nat) : (truncPad s w).length = w := by
  unfold truncPad pyTake pyLjust
  split_ifs with h1 h2
  · rw [strLength_mk, List.length_take]
    rw [strLength_data] at h1
    omega
  · rw [strLength_mk, List.length_append, List.length_replicate]
    rw [strLength_data] at h2
    omega
  · rw [strLength_data] at h1 h2
    rw [strLength_data]
    omega

theorem truncPad_of_le {s : String} {w : Nat} (h : s.length ≤ w) :
    truncPad s w = pyLjust s w := by
  unfold truncPad
  rcases Nat.lt_or_ge s.length w with h2 | h2
  · rw [if_neg (Nat.not_lt.mpr h), if_pos h2]
  · have hw : s.length = w := Nat.le_antisymm h h2
    rw [if_neg (Nat.not_lt.mpr h), if_neg (Nat.not_lt.mpr h2)]
    unfold pyLjust
    rw [strLength_data] at hw
    rw [hw, Nat.sub_self, List.replicate_zero, List.append_nil, strMk_data]

theorem fwField_ok_length {row : Row} {sp : Spec} {s : String}
    (h : fwField row sp = Except.ok s) : s.length = sp.width := by
  unfold fwField at h
  split at h
  · exact absurd h (by simp)
  · split at h
    · split at h
      · exact absurd h (by simp)
      · rw [Except.ok.injEq] at h
        rw [← h]
        exact truncPad_length _ _
    · exact absurd h (by simp)

theorem strLength_append (a b : String) :
    (a ++ b).length = a.length + b.length := by
  rw [strLength_data, strData_append, List.length_append, strLength_data, strLength_data]

theorem fwLine_ok_length {row : Row} :
    ∀ {specs : List Spec} {l : String},
      fwLine row specs = Except.ok l → l.length = widthSum specs := by
  intro specs
  induction specs with
  | nil =>
    intro l h
    simp only [fwLine, Except.ok.injEq] at h
    simp [← h, widthSum]
  | cons sp rest ih =>
    intro l h
    simp only [fwLine] at h
    cases hf : fwField row sp with
    | error e => rw [hf] at h; exact absurd h (by simp)
    | ok s =>
      rw [hf] at h
      cases hl : fwLine row rest with
      | error e => rw [hl] at h; exact absurd h (by simp)
      | ok l2 =>
        rw [hl, Except.ok.injEq] at h
        rw [← h, strLength_append, fwField_ok_length hf, ih hl]
        simp [widthSum]

theorem writeFwGo_lines_length {specs : List Spec} :
    ∀ (rows : List Row) (acc : List String),
      (∀ l ∈ acc, l.length = widthSum specs) →
      ∀ l ∈ linesOf (writeFwGo specs rows acc), l.length = widthSum specs := by
  intro rows
  induction rows with
  | nil =>
    intro acc hacc l hl
    simp only [writeFwGo, linesOf, List.mem_reverse] at hl
    exact hacc l hl
  | cons row rest ih =>
    intro acc hacc l hl
    simp only [writeFwGo] at hl
    cases hf : fwLine row specs with
    | error e =>
      cases e <;> rw [hf] at hl <;>
        simp only [linesOf, List.mem_reverse] at hl <;> exact hacc l hl
    | ok line =>
      rw [hf] at hl
      refine ih (line :: acc) ?_ l hl
      intro x hx
      rcases List.mem_cons.mp hx with rfl | hx
      · exact fwLine_ok_length hf
      · exact hacc x hx

/-! ## Claim theorems -/

/-- C1: for every row written by `write_fw` under a consistent field
specification whose widths sum to the schema's maximum end position, the
encoded line (before the trailing newline) has length exactly that maximum
end position, whatever the lengths of the input field values. -/
theorem C1_encoded_line_length (specs : List Spec) (rows : List Row)
    (hcons : ∀ sp ∈ specs, consistentSpec sp = true)
    (hsum : widthSum specs = maxEnd specs) :
    ∀ line ∈ linesOf (write_fw specs rows), line.length = maxEnd specs := by
  intro line hline
  rw [← hsum]
  exact writeFwGo_lines_length rows [] (by simp) line hline

/-- C1 witness: the data schema `dv_col_def` is consistent, its widths sum
to its maximum end position 3840, and every line written for a sample row
has that length. -/
theorem C1_witness :
    (∀ sp ∈ dv_col_def, consistentSpec sp = true) ∧
    widthSum dv_col_def = maxEnd dv_col_def ∧
    maxEnd dv_col_def = 3840 ∧
    (∀ line ∈ linesOf (write_fw dv_col_def [dvRowFull]), line.length = maxEnd dv_col_def) :=
  ⟨by decide, by decide, by decide,
   C1_encoded_line_length dv_col_def [dvRowFull] (by decide) (by decide)⟩

/-- C2: a non-filler field with a string value in the row is encoded by
truncation to the declared width when longer, by right-padding with spaces
to the width when shorter, and unchanged when of exactly the width; the
encoded field always has exactly the declared width. -/
theorem C2_truncate_pad (sp : Spec) (row : Row) (s : String)
    (hnf : hasFiller sp.name = false)
    (hcons : consistentSpec sp = true)
    (hlook : row.lookup sp.name = some (some s)) :
    fwField row sp = Except.ok (truncPad s sp.width) ∧
    (sp.width < s.length → (truncPad s sp.width).data = s.data.take sp.width) ∧
    (s.length < sp.width →
      (truncPad s sp.width).data = s.data ++ List.replicate (sp.width - s.length) ' ') ∧
    (s.length = sp.width → truncPad s sp.width = s) ∧
    (truncPad s sp.width).length = sp.width := by
  refine ⟨?_, ?_, ?_, ?_, truncPad_length s sp.width⟩
  · unfold fwField
    rw [hnf, if_neg (by simp), hlook, hcons]
    simp
  · intro h
    unfold truncPad
    rw [if_pos h]
    rfl
  · intro h
    unfold truncPad
    rw [if_neg (by omega), if_pos h]
    rfl
  · intro h
    unfold truncPad
    rw [if_neg (by omega), if_neg (by omega)]

/-- C2 witness: a 5-character value in a 3-wide consistent field is encoded
as its first 3 characters. -/
theorem C2_witness :
    hasFiller specEx.name = false ∧ consistentSpec specEx = true ∧
    rowEx.lookup specEx.name = some (some "ABCDE") ∧
    fwField rowEx specEx = Except.ok (truncPad "ABCDE" specEx.width) ∧
    (truncPad "ABCDE" specEx.width).data = ("ABCDE").data.take specEx.width := by
  have h := C2_truncate_pad specEx rowEx "ABCDE" (by decide) (by decide) (by decide)
  exact ⟨by decide, by decide, by decide, h.1, h.2.1 (by decide)⟩

/-! ## Lemmas about complete rows -/

theorem lookup_string_iff {row : Row} {n : String} :
    (match row.lookup n with
     | some (some _) => true
     | _ => false) = true ↔ ∃ s, row.lookup n = some (some s) := by
  cases h : row.lookup n with
  | none => simp
  | some v =>
    cases v with
    | none => simp
    | some s => simp

theorem rowComplete_cons {sp : Spec} {specs : List Spec} {row : Row} :
    rowComplete (sp :: specs) row = true ↔
      (hasFiller sp.name = true ∨ ∃ s, row.lookup sp.name = some (some s)) ∧
        rowComplete specs row = true := by
  unfold rowComplete
  rw [List.all_cons, Bool.and_eq_true, Bool.or_eq_true, lookup_string_iff]

theorem fwField_of_complete {row : Row} {sp : Spec}
    (h : hasFiller sp.name = true ∨ ∃ s, row.lookup sp.name = some (some s)) :
    (consistentSpec sp = false → fwField row sp = Except.error FwErr.ret0) ∧
    (consistentSpec sp = true → ∃ s, fwField row sp = Except.ok s) := by
  unfold fwField
  rcases h with h | ⟨s, h⟩
  · rw [h, if_pos rfl]
    constructor
    · intro hc; rw [hc]; rfl
    · intro hc; rw [hc]
      exact ⟨_, rfl⟩
  · rcases hf : hasFiller sp.name with _ | _
    · rw [if_neg (by simp), h]
      constructor
      · intro hc; rw [hc]; rfl
      · intro hc; rw [hc]
        exact ⟨_, rfl⟩
    · rw [if_pos rfl]
      constructor
      · intro hc; rw [hc]; rfl
      · intro hc; rw [hc]
        exact ⟨_, rfl⟩

theorem fwLine_ret0_of_bad {row : Row} :
    ∀ {specs : List Spec}, rowComplete specs row = true →
      (∃ sp ∈ specs, consistentSpec sp = false) →
      fwLine row specs = Except.error FwErr.ret0 := by
  intro specs
  induction specs with
  | nil => intro _ hbad; simp at hbad
  | cons sp rest ih =>
    intro hcomp hbad
    obtain ⟨hhead, htail⟩ := rowComplete_cons.mp hcomp
    cases hc : consistentSpec sp with
    | false =>
      have hf := (fwField_of_complete hhead).1 hc
      simp only [fwLine, hf]
    | true =>
      obtain ⟨s, hf⟩ := (fwField_of_complete hhead).2 hc
      have hbad2 : ∃ sp2 ∈ rest, consistentSpec sp2 = false := by
        rcases hbad with ⟨sp2, hsp2, hbad2⟩
        rcases List.mem_cons.mp hsp2 with rfl | hmem
        · exact absurd hc (by rw [hbad2]; simp)
        · exact ⟨sp2, hmem, hbad2⟩
      simp only [fwLine, hf, ih htail hbad2]

theorem fwLine_not_exn_of_complete {row : Row} :
    ∀ {specs : List Spec}, rowComplete specs row = true →
      fwLine row specs ≠ Except.error FwErr.exn := by
  intro specs
  induction specs with
  | nil => intro _ h; exact absurd h (by simp [fwLine])
  | cons sp rest ih =>
    intro hcomp h
    obtain ⟨hhead, htail⟩ := rowComplete_cons.mp hcomp
    simp only [fwLine] at h
    cases hf : fwField row sp with
    | error e =>
      rw [hf] at h
      cases hc : consistentSpec sp with
      | false =>
        rw [(fwField_of_complete hhead).1 hc] at hf
        rcases hf
        simp at h
      | true =>
        obtain ⟨s, hs⟩ := (fwField_of_complete hhead).2 hc
        rw [hs] at hf
        rcases hf
    | ok s =>
      rw [hf] at h
      cases hl : fwLine row rest with
      | error e =>
        rw [hl] at h
        cases e with
        | exn => exact ih htail hl
        | ret0 => simp at h
      | ok l => rw [hl] at h; simp at h

/-- C3: a call of `write_fw` whose specification contains an inconsistent
`(width, start, end)` triple returns 0 and writes no lines at all, for every
row set that supplies string values for the specification's non-filler
columns. -/
theorem C3_inconsistent_spec_returns_zero (specs : List Spec) (rows : List Row)
    (hbad : ∃ sp ∈ specs, consistentSpec sp = false)
    (hcomp : ∀ row ∈ rows, rowComplete specs row = true) :
    write_fw specs rows = FwResult.ret [] 0 := by
  cases rows with
  | nil => rfl
  | cons row rest =>
    have hline := fwLine_ret0_of_bad (hcomp row (by simp)) hbad
    unfold write_fw writeFwGo
    rw [hline]
    rfl

/-- C3 witness: the spec's own example `start=1, end=5, width=3` makes
`write_fw` return 0 without writing, on a nonempty row set. -/
theorem C3_witness :
    (∃ sp ∈ inconsistentSpecEx, consistentSpec sp = false) ∧
    write_fw inconsistentSpecEx [rowAEx] = FwResult.ret [] 0 :=
  ⟨by decide,
   C3_inconsistent_spec_returns_zero inconsistentSpecEx [rowAEx] (by decide) (by decide)⟩

/-- C9: with a consistent specification and no rows, `write_fw` returns 0
after writing nothing — the same `FwResult.ret [] 0` that the
inconsistent-specification error path produces, so a 0 return does not
distinguish an empty input from a failed write. -/
theorem C9_empty_write_returns_zero (specs : List Spec)
    (hcons : ∀ sp ∈ specs, consistentSpec sp = true) :
    write_fw specs [] = FwResult.ret [] 0 ∧
    write_fw inconsistentSpecEx [rowAEx] = FwResult.ret [] 0 :=
  ⟨rfl, by decide⟩

/-- C9 witness: the consistent data schema with an empty row set returns
the same result as the failed write. -/
theorem C9_witness :
    write_fw dv_col_def [] = FwResult.ret [] 0 ∧
    write_fw inconsistentSpecEx [rowAEx] = FwResult.ret [] 0 :=
  C9_empty_write_returns_zero dv_col_def (by decide)

theorem writeFwGo_ret_of_complete {specs : List Spec} :
    ∀ (rows : List Row) (acc : List String),
      (∀ row ∈ rows, rowComplete specs row = true) →
      ∃ lines retval, writeFwGo specs rows acc = FwResult.ret lines retval := by
  intro rows
  induction rows with
  | nil => intro acc _; exact ⟨acc.reverse, acc.length, rfl⟩
  | cons row rest ih =>
    intro acc hcomp
    unfold writeFwGo
    cases hf : fwLine row specs with
    | error e =>
      cases e with
      | exn => exact absurd hf (fwLine_not_exn_of_complete (hcomp row (by simp)))
      | ret0 => exact ⟨acc.reverse, 0, rfl⟩
    | ok line => exact ih (line :: acc) (fun r hr => hcomp r (by simp [hr]))

/-- C10: on rows that supply a string value for every non-filler column,
`write_fw` always returns normally; but a missing column or a
present-but-non-string value raises an uncaught exception rather than
emitting a blank field or returning an error code.  The unmapped-degree
`Degree Level Indicator` is exactly such a value: `create_DV_df` leaves it
null (`degreeLevelIndicator` yields `none`), the column is not in
`fill_list`, and the resulting row makes `write_fw` raise having written
nothing. -/
theorem C10_write_fw_partiality (specs : List Spec) (rows : List Row)
    (hcomp : ∀ row ∈ rows, rowComplete specs row = true) :
    (∃ lines retval, write_fw specs rows = FwResult.ret lines retval) ∧
    degreeLevelIndicator "PHD" = none ∧
    ("Degree Level Indicator" ∈ fill_list → False) ∧
    write_fw dv_col_def [dvRowNoDLI] = FwResult.excpt [] :=
  ⟨writeFwGo_ret_of_complete rows [] hcomp, by decide, by decide, by decide⟩

/-- C10 witness: a complete sample row writes normally, while the row with
the null `Degree Level Indicator` raises. -/
theorem C10_witness :
    (∃ lines retval, write_fw dv_col_def [dvRowFull] = FwResult.ret lines retval) ∧
    write_fw dv_col_def [dvRowNoDLI] = FwResult.excpt [] := by
  have h := C10_write_fw_partiality dv_col_def [dvRowFull] (by decide)
  exact ⟨h.1, h.2.2.2⟩

/-! ## The normal return value of `write_fw` counts the written lines -/

theorem fwField_ok_consistent {row : Row} {sp : Spec} {s : String}
    (h : fwField row sp = Except.ok s) : consistentSpec sp = true := by
  unfold fwField at h
  split at h
  · exact absurd h (by simp)
  · split at h
    · assumption
    · exact absurd h (by simp)

theorem fwField_ret0_consistent_false {row : Row} {sp : Spec}
    (h : fwField row sp = Except.error FwErr.ret0) : consistentSpec sp = false := by
  cases hc : consistentSpec sp with
  | false => rfl
  | true =>
    exfalso
    unfold fwField at h
    rw [hc] at h
    split at h
    · simp at h
    · rw [if_pos rfl] at h
      split at h
      · simp at h
      · simp at h

theorem fwLine_ok_consistent {row : Row} :
    ∀ {specs : List Spec} {l : String}, fwLine row specs = Except.ok l →
      ∀ sp ∈ specs, consistentSpec sp = true := by
  intro specs
  induction specs with
  | nil => intro l _ sp hsp; simp at hsp
  | cons sp0 rest ih =>
    intro l h sp hsp
    simp only [fwLine] at h
    cases hf : fwField row sp0 with
    | error e => rw [hf] at h; exact absurd h (by simp)
    | ok s =>
      rw [hf] at h
      cases hl : fwLine row rest with
      | error e => rw [hl] at h; exact absurd h (by simp)
      | ok l2 =>
        rcases List.mem_cons.mp hsp with rfl | hmem
        · exact fwField_ok_consistent hf
        · exact ih hl sp hmem

theorem fwLine_ret0_exists {row : Row} :
    ∀ {specs : List Spec}, fwLine row specs = Except.error FwErr.ret0 →
      ∃ sp ∈ specs, consistentSpec sp = false := by
  intro specs
  induction specs with
  | nil => intro h; simp [fwLine] at h
  | cons sp0 rest ih =>
    intro h
    simp only [fwLine] at h
    cases hf : fwField row sp0 with
    | error e =>
      rw [hf] at h
      cases e with
      | exn => exact absurd h (by simp)
      | ret0 => exact ⟨sp0, by simp, fwField_ret0_consistent_false hf⟩
    | ok s =>
      rw [hf] at h
      cases hl : fwLine row rest with
      | error e =>
        rw [hl] at h
        cases e with
        | exn => exact absurd h (by simp)
        | ret0 =>
          obtain ⟨sp2, hm, hc⟩ := ih hl
          exact ⟨sp2, by simp [hm], hc⟩
      | ok l2 => rw [hl] at h; exact absurd h (by simp)

theorem writeFwGo_ret_retval {specs : List Spec} :
    ∀ (rows : List Row) (acc : List String) {lines : List String} {retval : Nat},
      (acc = [] ∨ ∀ sp ∈ specs, consistentSpec sp = true) →
      writeFwGo specs rows acc = FwResult.ret lines retval →
      retval = lines.length := by
  intro rows
  induction rows with
  | nil =>
    intro acc lines retval _ h
    unfold writeFwGo at h
    rw [FwResult.ret.injEq] at h
    rw [← h.1, ← h.2, List.length_reverse]
  | cons row rest ih =>
    intro acc lines retval hana h
    unfold writeFwGo at h
    cases hf : fwLine row specs with
    | error e =>
      rw [hf] at h
      cases e with
      | exn => exact absurd h (by simp)
      | ret0 =>
        rw [FwResult.ret.injEq] at h
        have hacc : acc = [] := by
          rcases hana with rfl | hcons
          · rfl
          · obtain ⟨sp, hm, hc⟩ := fwLine_ret0_exists hf
            rw [hcons sp hm] at hc
            cases hc
        subst hacc
        rw [← h.1, ← h.2]
        rfl
    | ok line =>
      rw [hf] at h
      exact ih (line :: acc) (Or.inr (fwLine_ok_consistent hf)) h

theorem write_fw_ret_retval {specs : List Spec} {rows : List Row}
    {lines : List String} {retval : Nat}
    (h : write_fw specs rows = FwResult.ret lines retval) : retval = lines.length :=
  writeFwGo_ret_retval rows [] (Or.inl rfl) h

/-! ## Evaluation of the trailer write -/

theorem trailer_fwLine (t : Nat) (hfit : (toString t).length ≤ 10) :
    fwLine (trailer_row t) dv_tlr_def = Except.ok (trailerLine t) := by
  have h1 : fwField (trailer_row t) ⟨"Record Type", 3, 1, 3⟩ = Except.ok "DT1" := rfl
  have h2 : fwField (trailer_row t) ⟨"Total Record Count", 10, 4, 13⟩ =
      Except.ok (truncPad (toString t) 10) := rfl
  have h3 : fwField (trailer_row t) ⟨"Filler01", 3827, 14, 3840⟩ =
      Except.ok (String.mk (List.replicate 3827 ' ')) := rfl
  simp only [dv_tlr_def, fwLine, h1, h2, h3]
  rw [Except.ok.injEq]
  apply strExt
  rw [truncPad_of_le hfit]
  have h0 : ("" : String).data = [] := rfl
  simp only [strData_append, pyLjust, trailerLine, strLength_data, strData_mk,
    h0, List.append_assoc, List.append_nil]

theorem trailer_write (t : Nat) (hfit : (toString t).length ≤ 10) :
    write_fw dv_tlr_def [trailer_row t] = FwResult.ret [trailerLine t] 1 := by
  unfold write_fw writeFwGo
  rw [trailer_fwLine t hfit]
  rfl

/-- C7: the normal return value of a `write_fw` data-section call equals the
number of lines it wrote, and the trailer record built from that value
carries a Total Record Count of exactly that number plus 2 (header and
trailer included), left-justified in its 10-column field. -/
theorem C7_trailer_total_count (rows : List Row) (lines : List String) (n : Nat)
    (hdata : write_fw dv_col_def rows = FwResult.ret lines n)
    (hfit : (toString (n + 2)).length ≤ 10) :
    n = lines.length ∧
      write_DV_trailer n = FwResult.ret [trailerLine (lines.length + 2)] 1 := by
  have hn : n = lines.length := write_fw_ret_retval hdata
  subst hn
  exact ⟨rfl, trailer_write _ hfit⟩

/-- C7 witness: an empty data section writes 0 lines, and the trailer then
reports a total record count of 2. -/
theorem C7_witness :
    write_fw dv_col_def [] = FwResult.ret [] 0 ∧
    (0 : Nat) = ([] : List String).length ∧
    write_DV_trailer 0 = FwResult.ret [trailerLine (([] : List String).length + 2)] 1 := by
  have h := C7_trailer_total_count [] [] 0 rfl (by decide)
  exact ⟨rfl, h.1, h.2⟩

/-! ## Degree Level Indicator and SSN rules -/

/-- C4: the Degree Level Indicator derived by the five sequential `.loc`
assignments is `B` for `BS/BA/BPS`, `A` for `AS/AAS/AA/AOS`, `M` for
`MS/MPS`, `C` for `CERTIF`, `T` for `GCERT`, and is left unset (the pandas
null that later renders as a non-value) for every other degree code. -/
theorem C4_degree_level_indicator (degree : String) :
    (degree ∈ ["BS", "BA", "BPS"] → degreeLevelIndicator degree = some "B") ∧
    (degree ∈ ["AS", "AAS", "AA", "AOS"] → degreeLevelIndicator degree = some "A") ∧
    (degree ∈ ["MS", "MPS"] → degreeLevelIndicator degree = some "M") ∧
    (degree = "CERTIF" → degreeLevelIndicator degree = some "C") ∧
    (degree = "GCERT" → degreeLevelIndicator degree = some "T") ∧
    (degree ∉ ["BS", "BA", "BPS", "AS", "AAS", "AA", "AOS", "MS", "MPS",
        "CERTIF", "GCERT"] → degreeLevelIndicator degree = none) := by
  refine ⟨?_, ?_, ?_, ?_, ?_, ?_⟩
  · intro h
    fin_cases h <;> decide
  · intro h
    fin_cases h <;> decide
  · intro h
    fin_cases h <;> decide
  · intro h
    subst h
    decide
  · intro h
    subst h
    decide
  · intro h
    simp only [List.mem_cons, List.not_mem_nil, or_false, not_or] at h
    obtain ⟨h1, h2, h3, h4, h5, h6, h7, h8, h9, h10, h11⟩ := h
    unfold degreeLevelIndicator dliStep
    rw [if_neg (by simp [h11]),
        if_neg (by simp [h10]),
        if_neg (by simp [h8, h9]),
        if_neg (by simp [h4, h5, h6, h7]),
        if_neg (by simp [h1, h2, h3])]

/-- C4 witness: `BS` maps to `B` and the unmapped code `PHD` is left
unset. -/
theorem C4_witness :
    ("BS" ∈ ["BS", "BA", "BPS"] ∧ degreeLevelIndicator "BS" = some "B") ∧
    ("PHD" ∉ ["BS", "BA", "BPS", "AS", "AAS", "AA", "AOS", "MS", "MPS",
        "CERTIF", "GCERT"] ∧ degreeLevelIndicator "PHD" = none) :=
  ⟨⟨by decide, (C4_degree_level_indicator "BS").1 (by decide)⟩,
   ⟨by decide, (C4_degree_level_indicator "PHD").2.2.2.2.2 (by decide)⟩⟩

/-- C5: after the joins, records with a missing government ID are excluded
— they contribute nothing to the output, and every output record stems from
a present SSN — and every surviving SSN with prefix `000`, `888` or `999`
is replaced by the literal `"NO SSN"`. -/
theorem C5_ssn_rules {α : Type} (records : List (Option String × α)) :
    (∀ a : α, ssnFilterNormalize ((none, a) :: records) = ssnFilterNormalize records) ∧
    (∀ p ∈ ssnFilterNormalize records, ∃ s, (some s, p.2) ∈ records ∧ p.1 = applySsnRules s) ∧
    (∀ (s : String) (a : α), (some s, a) ∈ records →
      (applySsnRules s, a) ∈ ssnFilterNormalize records) ∧
    (∀ s : String,
      (pyStartswith s "000" || pyStartswith s "888" || pyStartswith s "999") = true →
      applySsnRules s = "NO SSN") := by
  refine ⟨?_, ?_, ?_, ?_⟩
  · intro a
    simp [ssnFilterNormalize]
  · intro p hp
    simp only [ssnFilterNormalize, List.mem_map, List.mem_filterMap] at hp
    obtain ⟨q, ⟨x, hx, hg⟩, rfl⟩ := hp
    obtain ⟨o, a⟩ := x
    cases o with
    | none => simp at hg
    | some s =>
      simp only [Option.map_some', Option.some.injEq] at hg
      subst hg
      exact ⟨s, hx, rfl⟩
  · intro s a hmem
    simp only [ssnFilterNormalize, List.mem_map, List.mem_filterMap]
    exact ⟨(s, a), ⟨(some s, a), hmem, rfl⟩, rfl⟩
  · intro s h
    simp only [Bool.or_eq_true] at h
    rcases h with (h0 | h8) | h9
    · have e0 : ssnPrefixStep "000" s = "NO SSN" := by
        unfold ssnPrefixStep
        rw [if_pos h0]
      unfold applySsnRules
      rw [e0]
      decide
    · have hne0 : pyStartswith s "000" = false := by
        cases hq : pyStartswith s "000" with
        | false => rfl
        | true =>
          exfalso
          unfold pyStartswith at h8 hq
          have e1 : s.data.take 3 = ("888").data := beq_iff_eq.mp h8
          have e2 : s.data.take 3 = ("000").data := beq_iff_eq.mp hq
          rw [e1] at e2
          exact absurd e2 (by decide)
      have e0 : ssnPrefixStep "000" s = s := by
        unfold ssnPrefixStep
        rw [if_neg (by simp [hne0])]
      have e8 : ssnPrefixStep "888" s = "NO SSN" := by
        unfold ssnPrefixStep
        rw [if_pos h8]
      unfold applySsnRules
      rw [e0, e8]
      decide
    · have hne0 : pyStartswith s "000" = false := by
        cases hq : pyStartswith s "000" with
        | false => rfl
        | true =>
          exfalso
          unfold pyStartswith at h9 hq
          have e1 : s.data.take 3 = ("999").data := beq_iff_eq.mp h9
          have e2 : s.data.take 3 = ("000").data := beq_iff_eq.mp hq
          rw [e1] at e2
          exact absurd e2 (by decide)
      have hne8 : pyStartswith s "888" = false := by
        cases hq : pyStartswith s "888" with
        | false => rfl
        | true =>
          exfalso
          unfold pyStartswith at h9 hq
          have e1 : s.data.take 3 = ("999").data := beq_iff_eq.mp h9
          have e2 : s.data.take 3 = ("888").data := beq_iff_eq.mp hq
          rw [e1] at e2
          exact absurd e2 (by decide)
      have e0 : ssnPrefixStep "000" s = s := by
        unfold ssnPrefixStep
        rw [if_neg (by simp [hne0])]
      have e8 : ssnPrefixStep "888" s = s := by
        unfold ssnPrefixStep
        rw [if_neg (by simp [hne8])]
      have e9 : ssnPrefixStep "999" s = "NO SSN" := by
        unfold ssnPrefixStep
        rw [if_pos h9]
      unfold applySsnRules
      rw [e0, e8, e9]

/-- C5 witness: on a sample record set, the missing-SSN record is dropped,
the `888`-prefix SSN is normalised to `"NO SSN"`, and the ordinary SSN is
kept. -/
theorem C5_witness :
    ssnFilterNormalize ((none, 3) :: ssnRecordsEx) = ssnFilterNormalize ssnRecordsEx ∧
    applySsnRules "888123456" = "NO SSN" ∧
    (applySsnRules "888123456", 1) ∈ ssnFilterNormalize ssnRecordsEx ∧
    (applySsnRules "123456789", 2) ∈ ssnFilterNormalize ssnRecordsEx := by
  have h := C5_ssn_rules ssnRecordsEx
  exact ⟨h.1 3, h.2.2.2 "888123456" (by decide),
    h.2.2.1 "888123456" 1 (by decide), h.2.2.1 "123456789" 2 (by decide)⟩

/-! ## The discarded first `ACADEMIC` query -/

/-- C8: the first `ACADEMIC` query of `academic_data` is dead: the function
equals the variant that issues only the second, narrower query, and its
output is unchanged under any modification of the data source's answer to
the first query (two sources agreeing on the second query give equal
outputs). -/
theorem C8_first_query_discarded (sel sel2 : Query → DF) (rest : DF → DF)
    (h : sel acadQuery2 = sel2 acadQuery2) :
    academic_data sel rest = academic_data_secondOnly sel rest ∧
    academic_data sel rest = academic_data sel2 rest := by
  constructor
  · rfl
  · unfold academic_data
    rw [h]

/-- C8 witness: a source whose first-query answer is nonempty and a source
answering nothing agree on the second query, and `academic_data` cannot tell
them apart. -/
theorem C8_witness :
    selEx acadQuery2 = selEx2 acadQuery2 ∧
    academic_data selEx id = academic_data_secondOnly selEx id ∧
    academic_data selEx id = academic_data selEx2 id := by
  have h := C8_first_query_discarded selEx selEx2 id (by decide)
  exact ⟨by decide, h.1, h.2⟩

/-! ## Order lemmas for the Python string comparison -/

theorem charLt_trans {a b c : Char} (h1 : charLt a b = true) (h2 : charLt b c = true) :
    charLt a c = true := by
  simp only [charLt, decide_eq_true_eq] at h1 h2 ⊢
  exact lt_trans h1 h2

theorem charLt_irrefl (a : Char) : charLt a a = false := by
  simp [charLt]

theorem char_eq_of_not_lt {a b : Char} (h1 : charLt a b = false) (h2 : charLt b a = false) :
    a = b := by
  simp only [charLt, decide_eq_false_iff_not, not_lt] at h1 h2
  exact le_antisymm h2 h1

theorem charsLt_trans : ∀ {a b c : List Char},
    charsLt a b = true → charsLt b c = true → charsLt a c = true
  | [], [], _, h1, _ => absurd h1 (by simp [charsLt])
  | [], _ :: _, [], _, h2 => absurd h2 (by simp [charsLt])
  | [], _ :: _, _ :: _, _, _ => rfl
  | _ :: _, [], _, h1, _ => absurd h1 (by simp [charsLt])
  | _ :: _, _ :: _, [], _, h2 => absurd h2 (by simp [charsLt])
  | a :: as, b :: bs, c :: cs, h1, h2 => by
    simp only [charsLt] at h1 h2 ⊢
    by_cases hab : charLt a b = true
    · by_cases hbc : charLt b c = true
      · rw [if_pos (charLt_trans hab hbc)]
      · by_cases hcb : charLt c b = true
        · rw [if_neg hbc, if_pos hcb] at h2
          exact absurd h2 (by simp)
        · have hbceq : b = c :=
            char_eq_of_not_lt (by simpa using hbc) (by simpa using hcb)
          subst hbceq
          rw [if_pos hab]
    · by_cases hba : charLt b a = true
      · rw [if_neg hab, if_pos hba] at h1
        exact absurd h1 (by simp)
      · have habeq : a = b :=
          char_eq_of_not_lt (by simpa using hab) (by simpa using hba)
        subst habeq
        rw [if_neg hab, if_neg hba] at h1
        by_cases hac : charLt a c = true
        · rw [if_pos hac]
        · by_cases hca : charLt c a = true
          · rw [if_neg hac, if_pos hca] at h2
            exact absurd h2 (by simp)
          · have haceq : a = c :=
              char_eq_of_not_lt (by simpa using hac) (by simpa using hca)
            subst haceq
            rw [if_neg hac, if_neg hca] at h2 ⊢
            exact charsLt_trans h1 h2

theorem charsLt_irrefl : ∀ (a : List Char), charsLt a a = false
  | [] => rfl
  | a :: as => by
    simp only [charsLt]
    rw [if_neg (by simp [charLt_irrefl]), if_neg (by simp [charLt_irrefl])]
    exact charsLt_irrefl as

theorem chars_eq_of_not_lt : ∀ {a b : List Char},
    charsLt a b = false → charsLt b a = false → a = b
  | [], [], _, _ => rfl
  | [], _ :: _, h1, _ => absurd h1 (by simp [charsLt])
  | _ :: _, [], _, h2 => absurd h2 (by simp [charsLt])
  | a :: as, b :: bs, h1, h2 => by
    by_cases hab : charLt a b = true
    · simp only [charsLt, if_pos hab] at h1
      exact absurd h1 (by simp)
    · by_cases hba : charLt b a = true
      · simp only [charsLt, if_pos hba] at h2
        exact absurd h2 (by simp)
      · have he : a = b :=
          char_eq_of_not_lt (by simpa using hab) (by simpa using hba)
        subst he
        simp only [charsLt, if_neg hab, if_neg hba] at h1 h2
        rw [chars_eq_of_not_lt h1 h2]

theorem pyStrLt_trans {a b c : String} (h1 : pyStrLt a b = true)
    (h2 : pyStrLt b c = true) : pyStrLt a c = true := charsLt_trans h1 h2

theorem pyStrLt_irrefl (a : String) : pyStrLt a a = false := charsLt_irrefl a.data

theorem pyStr_eq_of_not_lt {a b : String} (h1 : pyStrLt a b = false)
    (h2 : pyStrLt b a = false) : a = b := strExt (chars_eq_of_not_lt h1 h2)

/-! ## Lemmas about the rank of `minor_data` -/

theorem countEq_append (l1 l2 : List TDRow) (p d : String) :
    countEq (l1 ++ l2) p d = countEq l1 p d + countEq l2 p d := by
  unfold countEq
  rw [List.filter_append, List.length_append]

theorem countEq_singleton_self (r : TDRow) :
    countEq [r] r.pcid r.graduationDate = 1 := by
  unfold countEq
  simp [List.filter]

theorem countEq_last_pos (l : List TDRow) (r : TDRow) :
    1 ≤ countEq (l ++ [r]) r.pcid r.graduationDate := by
  rw [countEq_append, countEq_singleton_self]
  omega

theorem countEq_prefix_le (l1 l2 : List TDRow) (p d : String) :
    countEq l1 p d ≤ countEq (l1 ++ l2) p d := by
  rw [countEq_append]
  omega

theorem countLt_cons (r : TDRow) (t : List TDRow) (p d : String) :
    countLt (r :: t) p d =
      (if r.pcid = p ∧ pyStrLt r.graduationDate d = true then 1 else 0) +
        countLt t p d := by
  unfold countLt
  rw [List.filter_cons]
  by_cases h : r.pcid = p ∧ pyStrLt r.graduationDate d = true
  · rw [if_pos (by simp [h.1, h.2]), if_pos h, List.length_cons]
    omega
  · rw [if_neg (by intro hb; exact h (by simpa using hb)), if_neg h]
    omega

theorem countEq_cons (r : TDRow) (t : List TDRow) (p d : String) :
    countEq (r :: t) p d =
      (if r.pcid = p ∧ r.graduationDate = d then 1 else 0) + countEq t p d := by
  unfold countEq
  rw [List.filter_cons]
  by_cases h : r.pcid = p ∧ r.graduationDate = d
  · rw [if_pos (by simp [h.1, h.2]), if_pos h, List.length_cons]
    omega
  · rw [if_neg (by intro hb; exact h (by simpa using hb)), if_neg h]
    omega

theorem countLt_countEq_le {d d2 : String} (hlt : pyStrLt d d2 = true) (p : String) :
    ∀ l : List TDRow, countLt l p d + countEq l p d ≤ countLt l p d2
  | [] => by simp [countLt, countEq, List.filter]
  | r :: t => by
    have ih := countLt_countEq_le hlt p t
    rw [countLt_cons, countEq_cons, countLt_cons]
    by_cases hp : r.pcid = p
    · by_cases h1 : pyStrLt r.graduationDate d = true
      · have h2 : ¬(r.graduationDate = d) := by
          intro he
          rw [he, pyStrLt_irrefl] at h1
          cases h1
        have h3 : pyStrLt r.graduationDate d2 = true := pyStrLt_trans h1 hlt
        rw [if_pos ⟨hp, h1⟩, if_neg (fun hc => h2 hc.2), if_pos ⟨hp, h3⟩]
        omega
      · by_cases h2 : r.graduationDate = d
        · have h3 : pyStrLt r.graduationDate d2 = true := by
            rw [h2]
            exact hlt
          rw [if_neg (fun hc => h1 hc.2), if_pos ⟨hp, h2⟩, if_pos ⟨hp, h3⟩]
          omega
        · rw [if_neg (fun hc => h1 hc.2), if_neg (fun hc => h2 hc.2)]
          by_cases h3 : pyStrLt r.graduationDate d2 = true
          · rw [if_pos ⟨hp, h3⟩]
            omega
          · rw [if_neg (fun hc => h3 hc.2)]
            omega
    · rw [if_neg (fun hc => hp hc.1), if_neg (fun hc => hp hc.1),
        if_neg (fun hc => hp hc.1)]
      omega

theorem rankGo_mem {full : List TDRow} :
    ∀ {pre rest : List TDRow} {x : TDRow × Nat}, x ∈ rankGo full pre rest →
      ∃ mid rest2, rest = mid ++ x.1 :: rest2 ∧
        x.2 = countLt full x.1.pcid x.1.graduationDate +
          countEq (pre ++ mid ++ [x.1]) x.1.pcid x.1.graduationDate := by
  intro pre rest
  induction rest generalizing pre with
  | nil => intro x hx; simp [rankGo] at hx
  | cons r t ih =>
    intro x hx
    simp only [rankGo, List.mem_cons] at hx
    rcases hx with rfl | hx
    · exact ⟨[], t, by simp, by simp⟩
    · obtain ⟨mid, rest2, h1, h2⟩ := ih hx
      refine ⟨r :: mid, rest2, by simp [h1], ?_⟩
      rw [h2]
      congr 2
      simp [List.append_assoc]

theorem rankGo_rank_pos {full pre rest : List TDRow} {x : TDRow × Nat}
    (hx : x ∈ rankGo full pre rest) : 1 ≤ x.2 := by
  obtain ⟨mid, rest2, _, h2⟩ := rankGo_mem hx
  rw [h2]
  have h3 := countEq_last_pos (pre ++ mid) x.1
  omega

theorem rankGo_pairwise (full : List TDRow) :
    ∀ (pre rest : List TDRow), full = pre ++ rest →
      (rankGo full pre rest).Pairwise
        (fun x y => x.1.pcid = y.1.pcid → x.2 ≠ y.2)
  | _, [], _ => List.Pairwise.nil
  | pre, r :: rest, hfull => by
    simp only [rankGo]
    refine List.Pairwise.cons ?_
      (rankGo_pairwise full (pre ++ [r]) rest (by simp [hfull]))
    intro y hy hpcid
    dsimp only at hpcid ⊢
    obtain ⟨mid, rest2, hrest, hy2⟩ := rankGo_mem hy
    have hfull2 : full = (pre ++ [r]) ++ rest := by simp [hfull]
    have hfull3 : full = ((pre ++ [r]) ++ mid ++ [y.1]) ++ rest2 := by
      rw [hfull2, hrest]
      simp [List.append_assoc]
    by_cases h1 : pyStrLt r.graduationDate y.1.graduationDate = true
    · -- the earlier row has the earlier date: its rank is strictly smaller
      have hb1 : countEq (pre ++ [r]) r.pcid r.graduationDate ≤
          countEq full r.pcid r.graduationDate := by
        rw [hfull2]
        exact countEq_prefix_le _ _ _ _
      have hb2 := countLt_countEq_le h1 r.pcid full
      have hb3 := countEq_last_pos ((pre ++ [r]) ++ mid) y.1
      rw [← hpcid] at hb3
      rw [hy2, ← hpcid]
      intro heq
      omega
    · by_cases h2 : pyStrLt y.1.graduationDate r.graduationDate = true
      · -- the later row has the earlier date: its rank is strictly smaller
        have hb1 : countEq ((pre ++ [r]) ++ mid ++ [y.1]) y.1.pcid
            y.1.graduationDate ≤ countEq full y.1.pcid y.1.graduationDate := by
          rw [hfull3]
          exact countEq_prefix_le _ _ _ _
        have hb2 := countLt_countEq_le h2 y.1.pcid full
        have hb3 := countEq_last_pos pre r
        rw [← hpcid] at hb1 hb2
        rw [hy2, ← hpcid]
        intro heq
        omega
      · -- equal dates: the later row counts one more equal-date occurrence
        have hde : r.graduationDate = y.1.graduationDate :=
          pyStr_eq_of_not_lt (by simpa using h1) (by simpa using h2)
        have hsplit : countEq ((pre ++ [r]) ++ mid ++ [y.1]) y.1.pcid
            y.1.graduationDate =
            countEq (pre ++ [r]) y.1.pcid y.1.graduationDate +
              countEq (mid ++ [y.1]) y.1.pcid y.1.graduationDate := by
          rw [← countEq_append]
          congr 1
          simp [List.append_assoc]
        have hb3 := countEq_last_pos mid y.1
        rw [← hpcid, ← hde] at hb3
        have hyv : y.2 = countLt full r.pcid r.graduationDate +
            (countEq (pre ++ [r]) r.pcid r.graduationDate +
              countEq (mid ++ [y.1]) r.pcid r.graduationDate) := by
          rw [hy2, hsplit, ← hpcid, ← hde]
        intro heq
        rw [hyv] at heq
        omega

theorem addRank_pairwise (l : List TDRow) :
    (addRank l).Pairwise (fun x y => x.1.pcid = y.1.pcid → x.2 ≠ y.2) :=
  rankGo_pairwise l [] l (by simp)

theorem minor_data_mem {df_td : List TDRow} {m : MinorRec}
    (hm : m ∈ minor_data df_td) :
    1 ≤ m.rank ∧ m.rank ≤ 4 ∧
      m.col = "Minor Course of Study " ++ toString m.rank := by
  unfold minor_data at hm
  obtain ⟨x, hx, rfl⟩ := List.mem_map.mp hm
  have hx2 := List.mem_filter.mp hx
  refine ⟨rankGo_rank_pos hx2.1, ?_, rfl⟩
  simpa using hx2.2

theorem minor_data_pairwise (df_td : List TDRow) :
    (minor_data df_td).Pairwise (fun a b => a.pcid = b.pcid → a.rank ≠ b.rank) := by
  unfold minor_data
  rw [List.pairwise_map]
  exact List.Pairwise.sublist (List.filter_sublist _) (addRank_pairwise _)

theorem minor_data_per_index_count (df_td : List TDRow) (p d : String) :
    ((minor_data df_td).filter
      (fun m => m.pcid == p && m.graduationDate == d)).length ≤ 4 := by
  set S := (minor_data df_td).filter
    (fun m => m.pcid == p && m.graduationDate == d) with hS
  have hpw0 : S.Pairwise (fun a b => a.pcid = b.pcid → a.rank ≠ b.rank) :=
    List.Pairwise.sublist (List.filter_sublist _) (minor_data_pairwise df_td)
  have hmemp : ∀ m ∈ S, m.pcid = p := by
    intro m hm
    have h := (List.mem_filter.mp hm).2
    simp only [Bool.and_eq_true, beq_iff_eq] at h
    exact h.1
  have hpw : S.Pairwise (fun a b => a.rank ≠ b.rank) := by
    refine List.Pairwise.imp_of_mem ?_ hpw0
    intro a b ha hb hab
    exact hab ((hmemp a ha).trans (hmemp b hb).symm)
  have hnd : (S.map (fun m => m.rank)).Nodup := List.pairwise_map.mpr hpw
  have hsub : (S.map (fun m => m.rank)).toFinset ⊆ ({1, 2, 3, 4} : Finset ℕ) := by
    intro x hx
    obtain ⟨m, hm, rfl⟩ := List.mem_map.mp (List.mem_toFinset.mp hx)
    have hb := minor_data_mem (List.mem_filter.mp hm).1
    have h1 := hb.1
    have h2 := hb.2.1
    simp only [Finset.mem_insert, Finset.mem_singleton]
    omega
  have hcard : (S.map (fun m => m.rank)).length ≤ 4 := by
    rw [← List.toFinset_card_of_nodup hnd]
    calc (S.map (fun m => m.rank)).toFinset.card
        ≤ ({1, 2, 3, 4} : Finset ℕ).card := Finset.card_le_card hsub
      _ = 4 := by decide
  simpa using hcard

/-- C6 counterexample: the claim says minors are ranked per student within
each graduation-date grouping, which would give the sole 2021-06-01 minor of
student P001 rank 1 and a place in Minor Course of Study 1.  The code ranks
per student across all graduation dates: after four earlier minors the
2021-06-01 record gets rank 5 and is dropped, so no minor at all is pivoted
for that (student, date) pair. -/
theorem C6_counterexample :
    (tdFourPlusOne.filter (fun r =>
      r.degree == "MINOR" && r.graduationDate == "20210601")).length = 1 ∧
    (minor_data tdFourPlusOne).filter (fun m => m.graduationDate == "20210601") = [] ∧
    minorPivotCell tdFourPlusOne "P001" "20210601" "Minor Course of Study 1" = none := by
  refine ⟨by decide, by decide, by decide⟩

/-- C6 (amended): every pivoted minor has a rank between 1 and 4 and sits in
the column named after its rank; ranks are pairwise distinct within a
student; hence at most 4 minors appear for any (student, graduation date)
index.  Ranking is per student across all graduation dates — a single
sequence ordered by graduation date — not restarted within each graduation
date. -/
theorem C6_minor_rank_amended (df_td : List TDRow) :
    (∀ m ∈ minor_data df_td,
        1 ≤ m.rank ∧ m.rank ≤ 4 ∧
          m.col = "Minor Course of Study " ++ toString m.rank) ∧
    (minor_data df_td).Pairwise (fun a b => a.pcid = b.pcid → a.rank ≠ b.rank) ∧
    (∀ p d, ((minor_data df_td).filter
        (fun m => m.pcid == p && m.graduationDate == d)).length ≤ 4) :=
  ⟨fun _ hm => minor_data_mem hm, minor_data_pairwise df_td,
   fun p d => minor_data_per_index_count df_td p d⟩

/-- C6 witness: five minors of one student on one graduation date pivot to
at most four columns; the first four by rank survive with ranks 1–4 and the
fifth is dropped. -/
theorem C6_witness :
    ((minor_data tdFiveOneDate).filter (fun m =>
      m.pcid == "P001" && m.graduationDate == "20200515")).length ≤ 4 ∧
    (minor_data tdFiveOneDate).map (fun m => (m.curriculum, m.rank, m.col)) =
      [("BIO", 1, "Minor Course of Study 1"),
       ("CHE", 2, "Minor Course of Study 2"),
       ("ENG", 3, "Minor Course of Study 3"),
       ("FOR", 4, "Minor Course of Study 4")] :=
  ⟨(C6_minor_rank_amended tdFiveOneDate).2.2 "P001" "20200515", by decide⟩

end DegreeVerify
